import Mathlib

/-!
Verification of the JSON-flattening / schema-building / chat-orchestration core of
`src/app.py` (a Streamlit app that turns a website into an API via an external
extraction service).

The Python functions `flatten_json`, `convert_to_table`, `create_dynamic_model`,
`create_schema_from_fields`, `reset_chat` and the chat-submission handler are
shallowly embedded below.  Python dictionaries are modelled as ordered association
lists with Python's insertion/update semantics (`pyDict`); Python exceptions are
modelled with `Except String`; the two external collaborators (the pandas
`DataFrame.to_markdown` renderer and the Firecrawl `extract` call) are passed in
as function parameters, and pydantic's `model_json_schema` is modelled from the
spec.
-/

namespace App

/-- A JSON-like Python value: dict, list, or scalar (str / int / bool / None).
Dicts are ordered mappings, modelled as association lists in insertion order. -/
inductive Json where
  | str : String → Json
  | num : Int → Json
  | bool : Bool → Json
  | null : Json
  | arr : List Json → Json
  | obj : List (String × Json) → Json

/-- One update step of a Python dict: if the key is present its value is replaced
in place (keeping its position), otherwise the pair is appended at the end. -/
def dictInsert {α : Type} (d : List (String × α)) (k : String) (v : α) :
    List (String × α) :=
  if d.any (fun p => p.1 = k) then
    d.map (fun p => if p.1 = k then (k, v) else p)
  else d ++ [(k, v)]

/-- Python's `dict(items)`: fold the item list into a dict, later occurrences of a
key overwriting the value stored at the key's first position. -/
def pyDict {α : Type} (l : List (String × α)) : List (String × α) :=
  l.foldl (fun d p => dictInsert d p.1 p.2) []

mutual

/-- Embedding of `flatten_json` (src/app.py lines 48-65).  A dict input collects
the items produced for each key-value pair and returns `dict(items)`; a list input
maps the function over its elements; any other input is returned unchanged.
`Except.error` models an uncaught Python exception. -/
def flatten_json : Json → String → String → Except String Json
  | Json.obj kvs, parent_key, sep =>
      match flattenDictPairs kvs parent_key sep with
      | Except.ok items => Except.ok (Json.obj (pyDict items))
      | Except.error e => Except.error e
  | Json.arr xs, parent_key, sep =>
      match flattenElems xs parent_key sep with
      | Except.ok rs => Except.ok (Json.arr rs)
      | Except.error e => Except.error e
  | j, _, _ => Except.ok j

/-- The `for k, v in nested_json.items()` loop of `flatten_json` (lines 52-60):
computes `new_key`, and per value either splices in the items of a recursively
flattened dict, iterates over a list value (lines 57-58), or appends the scalar. -/
def flattenDictPairs : List (String × Json) → String → String →
    Except String (List (String × Json))
  | [], _, _ => Except.ok []
  | (k, v) :: rest, parent_key, sep =>
      let new_key := if parent_key = "" then k else parent_key ++ sep ++ k
      let head : Except String (List (String × Json)) :=
        match v with
        | Json.obj kvs2 =>
            match flattenDictPairs kvs2 new_key sep with
            | Except.ok sub => Except.ok (pyDict sub)
            | Except.error e => Except.error e
        | Json.arr xs => flattenArrayItems xs new_key sep 0
        | j => Except.ok [(new_key, j)]
      match head with
      | Except.error e => Except.error e
      | Except.ok headItems =>
          match flattenDictPairs rest parent_key sep with
          | Except.error e => Except.error e
          | Except.ok restItems => Except.ok (headItems ++ restItems)

/-- The `for i, item in enumerate(v)` loop (lines 57-58): each element is
flattened under `f"{new_key}_{i}"` — the index is joined with a literal
underscore, not with `sep` — and then `.items()` is called on the result, which
raises `AttributeError` whenever the flattened element is not a dict. -/
def flattenArrayItems : List Json → String → String → Nat →
    Except String (List (String × Json))
  | [], _, _, _ => Except.ok []
  | item :: rest, new_key, sep, i =>
      match flatten_json item (new_key ++ "_" ++ toString i) sep with
      | Except.error e => Except.error e
      | Except.ok r =>
          match r with
          | Json.obj l =>
              match flattenArrayItems rest new_key sep (i + 1) with
              | Except.error e => Except.error e
              | Except.ok restItems => Except.ok (l ++ restItems)
          | _ => Except.error "AttributeError: object has no attribute items"

/-- The list comprehension `[flatten_json(item, parent_key, sep=sep) for item in
nested_json]` of line 62. -/
def flattenElems : List Json → String → String → Except String (List Json)
  | [], _, _ => Except.ok []
  | x :: rest, parent_key, sep =>
      match flatten_json x parent_key sep with
      | Except.error e => Except.error e
      | Except.ok r =>
          match flattenElems rest parent_key sep with
          | Except.error e => Except.error e
          | Except.ok rs => Except.ok (r :: rs)

end

/-- A user-entered schema field row: `{"name": ..., "type": ...}`. -/
structure Field where
  name : String
  type : String
deriving DecidableEq

/-- The `type_mapping` dict of `create_dynamic_model` (line 34), with Python type
objects represented by their names. -/
def type_mapping : List (String × String) :=
  [("str", "str"), ("bool", "bool"), ("int", "int"), ("float", "float")]

/-- Embedding of `create_dynamic_model` (lines 31-40), reduced to the data it
produces: the `field_annotations` dict, mapping each field with a non-empty name
to its looked-up type (defaulting to `str` for unrecognized tags). -/
def create_dynamic_model (fields : List Field) : List (String × String) :=
  pyDict (fields.filterMap fun f =>
    if f.name = "" then none
    else some (f.name, match type_mapping.lookup f.type with
                       | some ty => ty
                       | none => "str"))

/-- The JSON-Schema-style descriptor produced for the extraction API. -/
structure SchemaDescriptor where
  properties : List (String × String)
  required : List String
deriving DecidableEq

/-- Modelled from the spec: pydantic's `model_json_schema` (an external library
call, not part of src/) renders a model whose only data is its annotations as a
JSON-Schema-style object with one typed property per annotated field, all such
properties required.  Python type names are mapped to JSON-Schema type tags. -/
def model_json_schema (annotations : List (String × String)) : SchemaDescriptor :=
  SchemaDescriptor.mk
    (annotations.map fun p =>
      (p.1, if p.2 = "str" then "string"
            else if p.2 = "bool" then "boolean"
            else if p.2 = "int" then "integer"
            else if p.2 = "float" then "number"
            else "string"))
    (annotations.map Prod.fst)

/-- Embedding of `create_schema_from_fields` (lines 42-46): `None` when no field
has a truthy (non-empty) name, otherwise the json schema of the dynamic model. -/
def create_schema_from_fields (fields : List Field) : Option SchemaDescriptor :=
  if fields.any (fun f => decide (f.name ≠ "")) then
    some (model_json_schema (create_dynamic_model fields))
  else none

/-- Python truthiness of a JSON-like value (`if not data:` on line 69). -/
def pyFalsy : Json → Bool
  | Json.null => true
  | Json.str s => decide (s = "")
  | Json.num n => decide (n = 0)
  | Json.bool b => decide (b = false)
  | Json.arr xs => xs.isEmpty
  | Json.obj _kvs => _kvs.isEmpty

/-- Whether a value is a Python dict (`isinstance(item, dict)`). -/
def isObj : Json → Bool
  | Json.obj _ => true
  | _ => false

/-- The fields of a dict value (total helper; only applied to dicts). -/
def objFieldsD : Json → List (String × Json)
  | Json.obj kvs => kvs
  | _ => []

/-- The `try:` block of `convert_to_table` (lines 72-82).  The pandas
`DataFrame`/`to_markdown` rendering is an external collaborator, passed in as
`to_markdown` on the list of rows; it may fail (`Except.error`), which models an
exception escaping the block. -/
def convert_to_table_body
    (to_markdown : List (List (String × Json)) → Except String String)
    (data : Json) : Except String String :=
  match data with
  | Json.arr xs =>
      if xs.all isObj then to_markdown (xs.map objFieldsD)
      else Except.ok "Invalid data format received."
  | Json.obj kvs => to_markdown [kvs]
  | Json.str s => Except.ok ("Extracted text: " ++ s)
  | _ => Except.ok "Invalid data format received."

/-- Embedding of `convert_to_table` (lines 67-85): falsy input short-circuits to
the sentinel, and any exception raised inside the `try:` block is caught and
converted to the prefixed error string. -/
def convert_to_table
    (to_markdown : List (List (String × Json)) → Except String String)
    (data : Json) : String :=
  if pyFalsy data then "No data available."
  else
    match convert_to_table_body to_markdown data with
    | Except.ok s => s
    | Except.error e => "Error converting data to table: " ++ e

/-- One transcript entry (`{"role": ..., "content": ...}`). -/
structure ChatMessage where
  role : String
  content : String
deriving DecidableEq

/-- The mutable Streamlit session state used by the app: the chat transcript and
the pending schema-field rows (lines 21-25). -/
structure SessionState where
  messages : List ChatMessage
  schema_fields : List Field
deriving DecidableEq

/-- Embedding of `reset_chat` (lines 27-29): clears the transcript (the
`gc.collect()` call has no observable effect on session state). -/
def reset_chat (s : SessionState) : SessionState :=
  SessionState.mk [] s.schema_fields

/-- The `extract_params` dict sent to the collaborator (lines 141-143). -/
structure ExtractParams where
  prompt : String
  schema : Option SchemaDescriptor
deriving DecidableEq

/-- Sequential flattening of the elements of a top-level list response
(`[flatten_json(item) for item in api_data]`, line 159); the first exception
aborts the comprehension. -/
def mapExcept {α β : Type} (f : α → Except String β) : List α → Except String (List β)
  | [] => Except.ok []
  | x :: rest =>
      match f x with
      | Except.error e => Except.error e
      | Except.ok y =>
          match mapExcept f rest with
          | Except.error e => Except.error e
          | Except.ok ys => Except.ok (y :: ys)

/-- Embedding of the chat-submission handler (lines 127-171).  The user message
is appended to the transcript first (line 128); with an empty URL the handler
reports an error and stops before calling anything (lines 133-134); otherwise it
builds the schema, invokes the external `extract` collaborator, validates the
response shape, flattens and tabularizes the payload, and appends the assistant
entry.  Every failure path shows an error and appends no assistant entry.  The
returned Bool records whether `extract` was invoked. -/
def chat_handler (s : SessionState) (website_url prompt : String)
    (to_markdown : List (List (String × Json)) → Except String String)
    (extract : List String → ExtractParams → Except String Json) :
    SessionState × Bool :=
  let s1 := SessionState.mk (s.messages ++ [ChatMessage.mk "user" prompt]) s.schema_fields
  if website_url = "" then (s1, false)
  else
    let schema := create_schema_from_fields s.schema_fields
    match extract [website_url] (ExtractParams.mk prompt schema) with
    | Except.error _e => (s1, true)
    | Except.ok data =>
        match data with
        | Json.obj kvs =>
            match kvs.lookup "data" with
            | none => (s1, true)
            | some api_data =>
                let tableE : Except String String :=
                  match api_data with
                  | Json.arr xs =>
                      match mapExcept (fun item => flatten_json item "" "_") xs with
                      | Except.error e => Except.error e
                      | Except.ok flat =>
                          Except.ok (convert_to_table to_markdown (Json.arr flat))
                  | Json.obj kvs2 =>
                      match flatten_json (Json.obj kvs2) "" "_" with
                      | Except.error e => Except.error e
                      | Except.ok flat =>
                          Except.ok (convert_to_table to_markdown flat)
                  | _ => Except.ok "Invalid data format."
                match tableE with
                | Except.error _e => (s1, true)
                | Except.ok table =>
                    (SessionState.mk (s1.messages ++ [ChatMessage.mk "assistant" table])
                       s1.schema_fields, true)
        | _ => (s1, true)

/-- Whether a value is a scalar (neither dict nor list). -/
def isScalar : Json → Bool
  | Json.obj _ => false
  | Json.arr _ => false
  | _ => true

mutual

/-- The spec's notion of the leaf scalars of a value together with their
key-paths: ancestor object keys and array indices joined with the default
separator. -/
def leafPairs : Json → String → List (String × Json)
  | Json.obj kvs, path => leafPairsList kvs path
  | Json.arr xs, path => leafPairsArr xs path 0
  | j, path => [(path, j)]

/-- Leaf key-path pairs of the fields of an object. -/
def leafPairsList : List (String × Json) → String → List (String × Json)
  | [], _ => []
  | (k, v) :: rest, path =>
      leafPairs v (if path = "" then k else path ++ "_" ++ k) ++ leafPairsList rest path

/-- Leaf key-path pairs of the elements of an array, starting at index `i`. -/
def leafPairsArr : List Json → String → Nat → List (String × Json)
  | [], _, _ => []
  | x :: rest, path, i =>
      leafPairs x (path ++ "_" ++ toString i) ++ leafPairsArr rest path (i + 1)

end

mutual

/-- Values on which the recursive flattening cannot raise: every array nested
inside the value contains only objects. -/
def goodVal : Json → Bool
  | Json.obj kvs => goodPairs kvs
  | Json.arr xs => goodElems xs
  | _ => true

/-- All values of an object's fields are good. -/
def goodPairs : List (String × Json) → Bool
  | [] => true
  | (_, v) :: rest => goodVal v && goodPairs rest

/-- All elements of an array are good objects. -/
def goodElems : List Json → Bool
  | [] => true
  | x :: rest =>
      (match x with
       | Json.obj kvs => goodPairs kvs
       | _ => false) && goodElems rest

end

/-- A table renderer that always succeeds (used to instantiate the external
`to_markdown` collaborator at concrete inputs). -/
def tm0 : List (List (String × Json)) → Except String String := fun _ => Except.ok "tbl"

/-- An extraction collaborator that returns a null payload (used to instantiate
the external `extract` collaborator at concrete inputs). -/
def ex0 : List String → ExtractParams → Except String Json := fun _ _ => Except.ok Json.null

/-- A table renderer that always fails (models a pandas rendering exception). -/
def tmFail : List (List (String × Json)) → Except String String := fun _ => Except.error "boom"

/-- A sample nested object: a nested dict plus an array of objects. -/
def sample1 : List (String × Json) :=
  [("a", Json.obj [("b", Json.num 1), ("c", Json.num 2)]),
   ("d", Json.arr [Json.obj [("e", Json.null)]])]

/-- Updating a Python dict at a key none of its pairs carries appends the pair. -/
theorem dictInsert_of_not_mem {α : Type} (d : List (String × α)) (k : String) (v : α)
    (h : ∀ p ∈ d, p.1 ≠ k) : dictInsert d k v = d ++ [(k, v)] := by
  unfold dictInsert
  rw [if_neg]
  simp only [List.any_eq_true, decide_eq_true_eq, not_exists]
  intro p hp
  exact h p hp.1 hp.2

/-- Folding an item list with pairwise-distinct keys into a Python dict just
appends the items in order. -/
theorem pyDict_foldl_of_nodup {α : Type} :
    ∀ (l acc : List (String × α)), (((acc ++ l).map Prod.fst).Nodup) →
      l.foldl (fun d p => dictInsert d p.1 p.2) acc = acc ++ l := by
  intro l
  induction l with
  | nil => intro acc _h; simp
  | cons p rest ihl =>
    intro acc h
    have hsplit : ((acc ++ p :: rest).map Prod.fst) =
        acc.map Prod.fst ++ p.1 :: rest.map Prod.fst := by simp
    rw [hsplit] at h
    have hnotin : p.1 ∉ acc.map Prod.fst := by
      have hd := (List.nodup_append.mp h).2.2
      intro hmem
      exact hd hmem (List.mem_cons_self _ _)
    have hstep : dictInsert acc p.1 p.2 = acc ++ [p] := by
      have := dictInsert_of_not_mem acc p.1 p.2 (by
        intro q hq he
        exact hnotin (he ▸ List.mem_map_of_mem Prod.fst hq))
      simpa using this
    rw [List.foldl_cons, hstep]
    have h2 : (((acc ++ [p]) ++ rest).map Prod.fst).Nodup := by
      simpa using h
    have := ihl (acc ++ [p]) h2
    simpa using this

/-- Python's `dict(items)` is the identity on item lists without duplicate keys. -/
theorem pyDict_eq_self {α : Type} (l : List (String × α))
    (h : (l.map Prod.fst).Nodup) : pyDict l = l := by
  have := pyDict_foldl_of_nodup l [] (by simpa using h)
  simpa [pyDict] using this

/-- A dict update leaves exactly the old keys plus the inserted key. -/
theorem dictInsert_keys_mem {α : Type} (d : List (String × α)) (k : String) (v : α)
    (m : String) :
    (m ∈ (dictInsert d k v).map Prod.fst) ↔ (m ∈ d.map Prod.fst ∨ m = k) := by
  unfold dictInsert
  by_cases hc : d.any (fun p => p.1 = k)
  · rw [if_pos hc]
    have hkeys : (d.map (fun p => if p.1 = k then (k, v) else p)).map Prod.fst =
        d.map Prod.fst := by
      rw [List.map_map]
      apply List.map_congr_left
      intro p _hp
      by_cases hpk : p.1 = k
      · simp [hpk]
      · simp [hpk]
    rw [hkeys]
    constructor
    · exact Or.inl
    · intro h
      rcases h with h | h
      · exact h
      · subst h
        rcases List.any_eq_true.mp hc with ⟨p, hp, he⟩
        have : p.1 = m := of_decide_eq_true he
        exact this ▸ List.mem_map_of_mem Prod.fst hp
  · rw [if_neg hc]
    simp

/-- Key membership in a dict built by folding: old keys plus the items' keys. -/
theorem pyDict_foldl_keys_mem {α : Type} :
    ∀ (l acc : List (String × α)) (m : String),
      (m ∈ (l.foldl (fun d p => dictInsert d p.1 p.2) acc).map Prod.fst) ↔
        (m ∈ acc.map Prod.fst ∨ m ∈ l.map Prod.fst) := by
  intro l
  induction l with
  | nil => intro acc m; simp
  | cons p rest ihl =>
    intro acc m
    rw [List.foldl_cons, ihl (dictInsert acc p.1 p.2) m, dictInsert_keys_mem]
    simp only [List.map_cons, List.mem_cons]
    tauto

/-- Python's `dict(items)` has exactly the keys of its item list. -/
theorem pyDict_keys_mem {α : Type} (l : List (String × α)) (m : String) :
    (m ∈ (pyDict l).map Prod.fst) ↔ (m ∈ l.map Prod.fst) := by
  rw [pyDict, pyDict_foldl_keys_mem]
  simp

/-- The list comprehension over a top-level array yields one result per element
whenever it succeeds. -/
theorem flattenElems_length :
    ∀ (xs : List Json) (parent_key sep : String) (ys : List Json),
      flattenElems xs parent_key sep = Except.ok ys → ys.length = xs.length := by
  intro xs
  induction xs with
  | nil =>
    intro parent_key sep ys h
    simp only [flattenElems] at h
    cases h
    rfl
  | cons x rest ihx =>
    intro parent_key sep ys h
    simp only [flattenElems] at h
    cases hx : flatten_json x parent_key sep with
    | error e => rw [hx] at h; cases h
    | ok r =>
      rw [hx] at h
      cases hrest : flattenElems rest parent_key sep with
      | error e => rw [hrest] at h; cases h
      | ok rs =>
        rw [hrest] at h
        cases h
        simp [ihx parent_key sep rs hrest]

/-- A string with an underscore appended is never empty. -/
theorem append_underscore_ne_empty (s t : String) : s ++ "_" ++ t ≠ "" := by
  intro h
  have h2 := congrArg String.length h
  rw [String.length_append, String.length_append] at h2
  simp at h2
  exact absurd h2.1.2 (by decide)

/-- On values whose nested arrays contain only objects, and whose synthesized leaf
key-paths are pairwise distinct, the recursive flattening succeeds and produces
exactly the spec-side leaf key-path pairs: clause one for the dict loop, clause
two for the array-element loop. -/
theorem flatten_good_aux : ∀ n : Nat,
    (∀ (kvs : List (String × Json)) (path : String), sizeOf kvs ≤ n →
        goodPairs kvs = true →
        ((leafPairsList kvs path).map Prod.fst).Nodup →
        flattenDictPairs kvs path "_" = Except.ok (leafPairsList kvs path)) ∧
    (∀ (xs : List Json) (path : String) (i : Nat), sizeOf xs ≤ n →
        goodElems xs = true →
        ((leafPairsArr xs path i).map Prod.fst).Nodup →
        flattenArrayItems xs path "_" i = Except.ok (leafPairsArr xs path i)) := by
  intro n
  induction n using Nat.strong_induction_on with
  | _ n ih =>
    constructor
    · intro kvs path hsize hgood hnodup
      cases kvs with
      | nil => rfl
      | cons hd rest =>
        obtain ⟨k, v⟩ := hd
        have hgv : goodVal v = true ∧ goodPairs rest = true := by
          simpa [goodPairs, Bool.and_eq_true] using hgood
        have hsplit : leafPairsList ((k, v) :: rest) path =
            leafPairs v (if path = "" then k else path ++ "_" ++ k) ++
              leafPairsList rest path := by
          simp [leafPairsList]
        rw [hsplit] at hnodup
        rw [List.map_append, List.nodup_append] at hnodup
        obtain ⟨hnA, hnB, _hdisj⟩ := hnodup
        have hltr : sizeOf rest < n := by
          simp only [List.cons.sizeOf_spec] at hsize
          omega
        have hrest : flattenDictPairs rest path "_" = Except.ok (leafPairsList rest path) :=
          (ih (sizeOf rest) hltr).1 rest path le_rfl hgv.2 hnB
        cases v with
        | str sv => simp only [flattenDictPairs, leafPairsList, leafPairs, hrest]
        | num nv => simp only [flattenDictPairs, leafPairsList, leafPairs, hrest]
        | bool bv => simp only [flattenDictPairs, leafPairsList, leafPairs, hrest]
        | null => simp only [flattenDictPairs, leafPairsList, leafPairs, hrest]
        | obj kvs2 =>
          have hlt2 : sizeOf kvs2 < n := by
            simp only [List.cons.sizeOf_spec, Prod.mk.sizeOf_spec,
              Json.obj.sizeOf_spec] at hsize
            omega
          have hgood2 : goodPairs kvs2 = true := by simpa [goodVal] using hgv.1
          have hnA' : ((leafPairsList kvs2
              (if path = "" then k else path ++ "_" ++ k)).map Prod.fst).Nodup := by
            simpa [leafPairs] using hnA
          have hsub := (ih (sizeOf kvs2) hlt2).1 kvs2
            (if path = "" then k else path ++ "_" ++ k) le_rfl hgood2 hnA'
          simp only [flattenDictPairs, leafPairsList, leafPairs, hsub, hrest,
            pyDict_eq_self _ hnA']
        | arr xs =>
          have hlt2 : sizeOf xs < n := by
            simp only [List.cons.sizeOf_spec, Prod.mk.sizeOf_spec,
              Json.arr.sizeOf_spec] at hsize
            omega
          have hgood2 : goodElems xs = true := by simpa [goodVal] using hgv.1
          have hnA' : ((leafPairsArr xs
              (if path = "" then k else path ++ "_" ++ k) 0).map Prod.fst).Nodup := by
            simpa [leafPairs] using hnA
          have hsub := (ih (sizeOf xs) hlt2).2 xs
            (if path = "" then k else path ++ "_" ++ k) 0 le_rfl hgood2 hnA'
          simp only [flattenDictPairs, leafPairsList, leafPairs, hsub, hrest]
    · intro xs path i hsize hgood hnodup
      cases xs with
      | nil => rfl
      | cons x rest =>
        cases x with
        | str sv => simp [goodElems] at hgood
        | num nv => simp [goodElems] at hgood
        | bool bv => simp [goodElems] at hgood
        | null => simp [goodElems] at hgood
        | arr ys => simp [goodElems] at hgood
        | obj kvs2 =>
          have hg : goodPairs kvs2 = true ∧ goodElems rest = true := by
            simpa [goodElems, Bool.and_eq_true] using hgood
          have hsplit : leafPairsArr (Json.obj kvs2 :: rest) path i =
              leafPairs (Json.obj kvs2) (path ++ "_" ++ toString i) ++
                leafPairsArr rest path (i + 1) := by
            simp [leafPairsArr]
          rw [hsplit] at hnodup
          rw [List.map_append, List.nodup_append] at hnodup
          obtain ⟨hnA, hnB, _hdisj⟩ := hnodup
          have hltr : sizeOf rest < n := by
            simp only [List.cons.sizeOf_spec] at hsize
            omega
          have hlt2 : sizeOf kvs2 < n := by
            simp only [List.cons.sizeOf_spec, Json.obj.sizeOf_spec] at hsize
            omega
          have hnA' : ((leafPairsList kvs2 (path ++ "_" ++ toString i)).map Prod.fst).Nodup := by
            simpa [leafPairs] using hnA
          have hsub := (ih (sizeOf kvs2) hlt2).1 kvs2 (path ++ "_" ++ toString i)
            le_rfl hg.1 hnA'
          have hrest := (ih (sizeOf rest) hltr).2 rest path (i + 1) le_rfl hg.2 hnB
          simp only [flattenArrayItems, flatten_json, leafPairsArr, leafPairs, hsub, hrest,
            pyDict_eq_self _ hnA']

/-- The keys of the dynamic model's annotations are exactly the non-empty names
occurring among the fields. -/
theorem create_dynamic_model_keys_mem (fields : List Field) (m : String) :
    (m ∈ (create_dynamic_model fields).map Prod.fst) ↔
      (m ≠ "" ∧ ∃ f ∈ fields, f.name = m) := by
  rw [create_dynamic_model, pyDict_keys_mem]
  constructor
  · intro hm
    rcases List.mem_map.mp hm with ⟨p, hp, hpm⟩
    rcases List.mem_filterMap.mp hp with ⟨f, hf, hgf⟩
    by_cases hemp : f.name = ""
    · rw [if_pos hemp] at hgf; cases hgf
    · rw [if_neg hemp] at hgf
      cases hgf
      exact ⟨fun h => hemp (hpm.trans h), f, hf, hpm⟩
  · rintro ⟨hm, f, hf, hname⟩
    apply List.mem_map.mpr
    refine ⟨(f.name, match type_mapping.lookup f.type with
                     | some ty => ty
                     | none => "str"), ?_, hname⟩
    apply List.mem_filterMap.mpr
    refine ⟨f, hf, ?_⟩
    rw [if_neg (fun h => hm (hname.symm.trans h))]

/-- Claim C1 (amended): on any object-rooted value in which every nested array
contains only objects and whose synthesized leaf key-paths are pairwise distinct,
`flatten_json` with default arguments returns a single flat row whose pairs are
exactly the leaf scalars keyed by the underscore-joined concatenation of their
ancestor object keys and array indices, and every such key occurs exactly once. -/
theorem flatten_leaf_exactly_once (kvs : List (String × Json))
    (hgood : goodPairs kvs = true)
    (hnodup : ((leafPairs (Json.obj kvs) "").map Prod.fst).Nodup) :
    flatten_json (Json.obj kvs) "" "_" =
      Except.ok (Json.obj (leafPairs (Json.obj kvs) "")) ∧
    ∀ p v, (p, v) ∈ leafPairs (Json.obj kvs) "" →
      ((leafPairs (Json.obj kvs) "").map Prod.fst).count p = 1 := by
  have hnodup' : ((leafPairsList kvs "").map Prod.fst).Nodup := by
    simpa [leafPairs] using hnodup
  have hA := (flatten_good_aux (sizeOf kvs)).1 kvs "" le_rfl hgood hnodup'
  constructor
  · simp only [flatten_json, hA, leafPairs, pyDict_eq_self _ hnodup']
  · intro p v hmem
    exact List.count_eq_one_of_mem hnodup (List.mem_map_of_mem Prod.fst hmem)

/-- Claim C1 (counterexample to the claim as stated): on the input
`{"a": [1]}` the code raises AttributeError (the flattened array element `1` is
not a dict, and `.items()` is called on it), so the leaf scalar `1` does not
appear in any flattened output at all. -/
theorem flatten_scalar_in_array_raises :
    flatten_json (Json.obj [("a", Json.arr [Json.num 1])]) "" "_" =
      Except.error "AttributeError: object has no attribute items" := rfl

/-- Claim C1 witness: the amended theorem applied to a concrete nested object. -/
theorem flatten_leaf_exactly_once_witness :
    goodPairs sample1 = true ∧
    ((leafPairs (Json.obj sample1) "").map Prod.fst).Nodup ∧
    flatten_json (Json.obj sample1) "" "_" =
      Except.ok (Json.obj [("a_b", Json.num 1), ("a_c", Json.num 2), ("d_0_e", Json.null)]) ∧
    ((leafPairs (Json.obj sample1) "").map Prod.fst).count "a_b" = 1 :=
  ⟨by decide, by decide,
   (flatten_leaf_exactly_once sample1 (by decide) (by decide)).1.trans (by rfl),
   (flatten_leaf_exactly_once sample1 (by decide) (by decide)).2 "a_b" (Json.num 1)
     (List.mem_cons_self _ _)⟩

/-- Claim C2 (counterexample to the claim as stated): with separator `"."`, the
element of the array under key `"a"` is flattened under `"a_0"`, not `"a.0"`:
the output key is `"a_0.b"` and not the `"a.0.b"` the claim requires. -/
theorem flatten_index_separator_counterexample :
    flatten_json (Json.obj [("a", Json.arr [Json.obj [("b", Json.num 1)]])]) "" "." =
      Except.ok (Json.obj [("a_0.b", Json.num 1)]) ∧
    flatten_json (Json.obj [("a", Json.arr [Json.obj [("b", Json.num 1)]])]) "" "." ≠
      Except.ok (Json.obj [("a.0.b", Json.num 1)]) := by
  constructor
  · rfl
  · intro h
    have h2 : (Except.ok (Json.obj [("a_0.b", Json.num 1)]) : Except String Json) =
        Except.ok (Json.obj [("a.0.b", Json.num 1)]) := Eq.trans (by rfl) h
    simp at h2

/-- Claim C2 (amended): for every separator, prefix and index, the array-element
loop of `flatten_json` computes the element's key as the array's own key followed
by a literal underscore and the index — the caller-supplied separator is NOT used
for the index segment (it is used for the object keys inside the element). -/
theorem flatten_array_index_uses_underscore (new_key sep b : String) (i : Nat) (n : Int) :
    flattenArrayItems [Json.obj [(b, Json.num n)]] new_key sep i =
      Except.ok [(new_key ++ "_" ++ toString i ++ sep ++ b, Json.num n)] := by
  have hne : (new_key ++ "_" ++ toString i = "") = False :=
    eq_false (append_underscore_ne_empty _ _)
  simp only [flattenArrayItems, flatten_json, flattenDictPairs, hne, if_false, pyDict,
    List.foldl_cons, List.foldl_nil, dictInsert, List.any_nil, Bool.false_eq_true, if_false,
    List.nil_append, List.append_nil]

/-- Claim C3 (amended): whenever `flatten_json` returns normally, an object at
top level yields a single flat mapping, and an array at top level yields a
sequence with exactly one flattened entry per element; in particular
`flatten_json [{"x": 1}, {"x": 2}] = [{"x": 1}, {"x": 2}]`. -/
theorem flatten_toplevel_shape :
    (∀ (kvs : List (String × Json)) (sep : String) (r : Json),
        flatten_json (Json.obj kvs) "" sep = Except.ok r → ∃ items, r = Json.obj items) ∧
    (∀ (xs : List Json) (sep : String) (r : Json),
        flatten_json (Json.arr xs) "" sep = Except.ok r →
          ∃ ys, r = Json.arr ys ∧ ys.length = xs.length) ∧
    flatten_json (Json.arr [Json.obj [("x", Json.num 1)], Json.obj [("x", Json.num 2)]]) "" "_" =
      Except.ok (Json.arr [Json.obj [("x", Json.num 1)], Json.obj [("x", Json.num 2)]]) := by
  refine ⟨?_, ?_, rfl⟩
  · intro kvs sep r h
    simp only [flatten_json] at h
    cases hd : flattenDictPairs kvs "" sep with
    | error e => rw [hd] at h; cases h
    | ok items => rw [hd] at h; cases h; exact ⟨pyDict items, rfl⟩
  · intro xs sep r h
    simp only [flatten_json] at h
    cases he : flattenElems xs "" sep with
    | error e => rw [he] at h; cases h
    | ok ys =>
      rw [he] at h; cases h
      exact ⟨ys, rfl, flattenElems_length xs "" sep ys he⟩

/-- Claim C3 (counterexample to the claim as stated): not every top-level array
input returns a sequence — an element containing an array of non-objects makes
the code raise AttributeError instead. -/
theorem flatten_toplevel_array_raises :
    flatten_json (Json.arr [Json.obj [("a", Json.arr [Json.bool true])]]) "" "_" =
      Except.error "AttributeError: object has no attribute items" := rfl

/-- Claim C3 witness: the shape statements applied at concrete inputs. -/
theorem flatten_toplevel_shape_witness :
    (∃ items, Json.obj [("k", Json.null)] = Json.obj items) ∧
    (∃ ys, Json.arr [Json.null] = Json.arr ys ∧ ys.length = [Json.null].length) :=
  ⟨flatten_toplevel_shape.1 [("k", Json.null)] "_" (Json.obj [("k", Json.null)]) rfl,
   flatten_toplevel_shape.2.1 [Json.null] "_" (Json.arr [Json.null]) rfl⟩

/-- Claim C4 (counterexample to the claim as stated): submitting with an empty
URL does change the messages list — the user's own message is appended before
the URL check (line 128 precedes lines 133-134). -/
theorem chat_empty_url_still_appends_user :
    (chat_handler (SessionState.mk [] [Field.mk "" "str"]) "" "hi" tm0 ex0).1.messages ≠
      (SessionState.mk [] [Field.mk "" "str"]).messages := by decide

/-- Claim C4 (amended): for every session state, prompt, renderer and extraction
collaborator, submitting with an empty URL never invokes the collaborator
(the result does not depend on `ex`, and the invoked flag is false) and appends
no assistant entry: the transcript gains exactly the user message. -/
theorem chat_empty_url_no_call_no_assistant (s : SessionState) (prompt : String)
    (tm : List (List (String × Json)) → Except String String)
    (ex : List String → ExtractParams → Except String Json) :
    chat_handler s "" prompt tm ex =
      (SessionState.mk (s.messages ++ [ChatMessage.mk "user" prompt]) s.schema_fields,
       false) := rfl

/-- Claim C5: `convert_to_table` is total (it returns a string by type), and any
failure escaping the rendering block on a truthy input is converted to the
prefixed error string. -/
theorem convert_to_table_error_string
    (tm : List (List (String × Json)) → Except String String) (data : Json) (e : String)
    (hfalsy : pyFalsy data = false)
    (herr : convert_to_table_body tm data = Except.error e) :
    convert_to_table tm data = "Error converting data to table: " ++ e := by
  simp [convert_to_table, hfalsy, herr]

/-- Claim C5 witness: a failing renderer on a concrete dict input. -/
theorem convert_to_table_error_string_witness :
    pyFalsy (Json.obj [("a", Json.num 1)]) = false ∧
    convert_to_table_body tmFail (Json.obj [("a", Json.num 1)]) = Except.error "boom" ∧
    convert_to_table tmFail (Json.obj [("a", Json.num 1)]) =
      "Error converting data to table: boom" :=
  ⟨rfl, rfl,
   (convert_to_table_error_string tmFail (Json.obj [("a", Json.num 1)]) "boom" rfl rfl).trans
     (by rfl)⟩

/-- Claim C6 (counterexample to the claim as stated): the bare scalar `5` is not
rendered as extracted text — only `str` values reach that branch; a number falls
through to the invalid-format sentinel. -/
theorem convert_scalar_counterexample :
    convert_to_table tm0 (Json.num 5) = "Invalid data format received." ∧
    convert_to_table tm0 (Json.num 5) ≠ "Extracted text: 5" := ⟨rfl, by decide⟩

/-- Claim C6 (amended): for every NON-EMPTY STRING scalar input,
`convert_to_table` returns the concatenation of the extracted-text sentinel and
the string (independent of the renderer); other scalars yield the
invalid-format or no-data sentinels. -/
theorem convert_nonempty_string_extracted_text
    (tm : List (List (String × Json)) → Except String String) (s : String) (h : s ≠ "") :
    convert_to_table tm (Json.str s) = "Extracted text: " ++ s := by
  have h' : (s = "") = False := eq_false h
  simp [convert_to_table, convert_to_table_body, pyFalsy, h']

/-- Claim C6 witness: the amended theorem at the spec's own example. -/
theorem convert_nonempty_string_extracted_text_witness :
    ("hello" : String) ≠ "" ∧
    convert_to_table tm0 (Json.str "hello") = "Extracted text: hello" :=
  ⟨by decide, (convert_nonempty_string_extracted_text tm0 "hello" (by decide)).trans (by rfl)⟩

/-- Claim C7: `create_schema_from_fields` returns `none` iff every field name is
empty, and when it returns a schema its property keys are exactly the non-empty
names occurring among the fields. -/
theorem create_schema_none_iff_and_properties (fields : List Field) :
    (create_schema_from_fields fields = none ↔ ∀ f ∈ fields, f.name = "") ∧
    ∀ d, create_schema_from_fields fields = some d →
      ∀ m : String,
        (m ∈ d.properties.map Prod.fst ↔ (m ≠ "" ∧ ∃ f ∈ fields, f.name = m)) := by
  constructor
  · constructor
    · intro h f hf
      by_contra hne
      have hany : fields.any (fun f => decide (f.name ≠ "")) = true :=
        List.any_eq_true.mpr ⟨f, hf, by simpa using hne⟩
      rw [create_schema_from_fields, if_pos hany] at h
      cases h
    · intro h
      rw [create_schema_from_fields, if_neg (fun hany => by
        rcases List.any_eq_true.mp hany with ⟨f, hf, hdec⟩
        exact (of_decide_eq_true hdec) (h f hf))]
  · intro d hd m
    have hany : fields.any (fun f => decide (f.name ≠ "")) = true := by
      by_contra hc
      rw [create_schema_from_fields, if_neg hc] at hd
      cases hd
    rw [create_schema_from_fields, if_pos hany] at hd
    cases hd
    have hkeys : ((model_json_schema (create_dynamic_model fields)).properties.map Prod.fst) =
        (create_dynamic_model fields).map Prod.fst := by
      rw [model_json_schema, List.map_map]
      rfl
    rw [hkeys]
    exact create_dynamic_model_keys_mem fields m

/-- Claim C7 witness: one empty-named and one named field. -/
theorem create_schema_none_iff_and_properties_witness :
    create_schema_from_fields [Field.mk "" "str", Field.mk "a" "int"] =
      some (SchemaDescriptor.mk [("a", "integer")] ["a"]) ∧
    (("a" : String) ∈ (SchemaDescriptor.mk [("a", "integer")] ["a"]).properties.map Prod.fst ↔
      (("a" : String) ≠ "" ∧ ∃ f ∈ [Field.mk "" "str", Field.mk "a" "int"], f.name = "a")) :=
  ⟨rfl,
   (create_schema_none_iff_and_properties [Field.mk "" "str", Field.mk "a" "int"]).2
     (SchemaDescriptor.mk [("a", "integer")] ["a"]) rfl "a"⟩

/-- Claim C8: an empty object flattens to an empty flat row, an empty array to an
empty sequence, and a null value inside an object is preserved under its computed
key rather than dropped — for every prefix, separator and key. -/
theorem flatten_empty_and_null (path sep k : String) :
    flatten_json (Json.obj []) path sep = Except.ok (Json.obj []) ∧
    flatten_json (Json.arr []) path sep = Except.ok (Json.arr []) ∧
    flatten_json (Json.obj [(k, Json.null)]) path sep =
      Except.ok (Json.obj [(if path = "" then k else path ++ sep ++ k, Json.null)]) :=
  ⟨rfl, rfl, rfl⟩

/-- Claim C9: flattening a depth-1 mapping whose values are all scalars returns
the mapping unchanged (idempotence on already-flat input). -/
theorem flatten_flat_map_identity (kvs : List (String × Json))
    (hscalar : ∀ p ∈ kvs, isScalar p.2 = true)
    (hnodup : (kvs.map Prod.fst).Nodup) :
    flatten_json (Json.obj kvs) "" "_" = Except.ok (Json.obj kvs) := by
  have hpairs : ∀ (l : List (String × Json)), (∀ p ∈ l, isScalar p.2 = true) →
      flattenDictPairs l "" "_" = Except.ok l := by
    intro l
    induction l with
    | nil => intro _h; rfl
    | cons hd rest ihl =>
      intro h
      obtain ⟨k, v⟩ := hd
      have hv : isScalar v = true := h (k, v) (List.mem_cons_self _ _)
      have hrest := ihl (fun p hp => h p (List.mem_cons_of_mem _ hp))
      cases v with
      | obj kvs2 => simp [isScalar] at hv
      | arr xs => simp [isScalar] at hv
      | str sv => simp only [flattenDictPairs, hrest, List.singleton_append]; rfl
      | num nv => simp only [flattenDictPairs, hrest, List.singleton_append]; rfl
      | bool bv => simp only [flattenDictPairs, hrest, List.singleton_append]; rfl
      | null => simp only [flattenDictPairs, hrest, List.singleton_append]; rfl
  simp only [flatten_json, hpairs kvs hscalar, pyDict_eq_self kvs hnodup]

/-- Claim C9 witness: a concrete flat two-field mapping. -/
theorem flatten_flat_map_identity_witness :
    (∀ p ∈ [("a", Json.num 1), ("b", Json.str "x")], isScalar p.2 = true) ∧
    (List.map Prod.fst [("a", Json.num 1), ("b", Json.str "x")]).Nodup ∧
    flatten_json (Json.obj [("a", Json.num 1), ("b", Json.str "x")]) "" "_" =
      Except.ok (Json.obj [("a", Json.num 1), ("b", Json.str "x")]) :=
  ⟨by decide, by decide, flatten_flat_map_identity _ (by decide) (by decide)⟩

/-- Claim C10: `reset_chat` empties the transcript and leaves the pending schema
field rows untouched. -/
theorem reset_chat_clears_messages_preserves_fields (s : SessionState) :
    (reset_chat s).messages = [] ∧ (reset_chat s).schema_fields = s.schema_fields :=
  ⟨rfl, rfl⟩

end App
